import Mathlib

/-!
Shallow embedding of the server-side room state machine of the
Real-Time Collaborative Drawing Canvas server (`server.js`).

JavaScript `Map` objects (the room registry `rooms`, the global `users`
map, and each room's `users` map) are embedded as association lists with
insertion-order semantics: `set` overwrites in place or appends, `delete`
removes the entry, `get`/`has` find the first (unique) occurrence.
-/

/-- JS `Map.get(k)`: the value at key `k`, if present. -/
def mapGet {α : Type} : List (String × α) → String → Option α
  | [], _ => none
  | p :: rest, k => if p.1 = k then some p.2 else mapGet rest k

/-- JS `Map.set(k, v)`: overwrite in place if the key exists, else append. -/
def mapSet {α : Type} : List (String × α) → String → α → List (String × α)
  | [], k, v => [(k, v)]
  | p :: rest, k, v => if p.1 = k then (k, v) :: rest else p :: mapSet rest k v

/-- JS `Map.delete(k)`: remove the entry at key `k`. -/
def mapDelete {α : Type} : List (String × α) → String → List (String × α)
  | [], _ => []
  | p :: rest, k => if p.1 = k then mapDelete rest k else p :: mapDelete rest k

/-- JS `Map.has(k)`. -/
def mapHas {α : Type} (m : List (String × α)) (k : String) : Bool :=
  (mapGet m k).isSome

/-- One drawing operation as stored in a room's log (`draw:event` payload).
`timestamp` is optional on arrival and backfilled by the server. -/
structure Operation where
  id : String
  userId : String
  timestamp : Option Nat
deriving Repr, DecidableEq

/-- Client-supplied `userData` object on `room:join`: its own `id` and
`socketId` keys (which the spread `{...userData}` copies over the defaults
when present) plus the rest of its fields, kept opaque. -/
structure UserData where
  id : Option String
  socketId : Option String
  extra : Option String
deriving Repr, DecidableEq

/-- A connected participant as built in the `room:join` handler:
`{id: userId || socket.id, socketId: socket.id, ...userData}` — the spread is
applied last, so `userData` can overwrite `id` and `socketId`. -/
structure User where
  id : String
  socketId : String
  extra : Option String
deriving Repr, DecidableEq

/-- The `Room` class: per-room operation log, membership map and undo cursor. -/
structure Room where
  roomId : String
  operations : List Operation
  users : List (String × User)
  currentOperationIndex : Int
deriving Repr, DecidableEq

namespace Room

/-- The `Room` constructor. -/
def mkRoom (roomId : String) : Room :=
  { roomId := roomId, operations := [], users := [], currentOperationIndex := -1 }

/-- `addOperation`: truncate the redo-pending tail
(`slice(0, currentOperationIndex + 1)`), push, move the cursor to the end. -/
def addOperation (r : Room) (op : Operation) : Room × Operation :=
  let ops := r.operations.take (r.currentOperationIndex + 1).toNat ++ [op]
  ({ r with operations := ops, currentOperationIndex := (ops.length : Int) - 1 }, op)

/-- `undo`: `null` when the cursor is below 0, else return the operation at the
cursor and decrement. -/
def undo (r : Room) : Room × Option Operation :=
  if r.currentOperationIndex < 0 then (r, none)
  else
    ({ r with currentOperationIndex := r.currentOperationIndex - 1 },
      r.operations[r.currentOperationIndex.toNat]?)

/-- `redo`: `null` when the cursor is already at the last stored operation, else
increment and return the operation now at the cursor. -/
def redo (r : Room) : Room × Option Operation :=
  if r.currentOperationIndex ≥ (r.operations.length : Int) - 1 then (r, none)
  else
    ({ r with currentOperationIndex := r.currentOperationIndex + 1 },
      r.operations[(r.currentOperationIndex + 1).toNat]?)

/-- `getOperations`: `slice(0, currentOperationIndex + 1)` — the visible log. -/
def getOperations (r : Room) : List Operation :=
  r.operations.take (r.currentOperationIndex + 1).toNat

/-- `addUser`: `users.set(userId, userData)`. -/
def addUser (r : Room) (userId : String) (u : User) : Room :=
  { r with users := mapSet r.users userId u }

/-- `removeUser`: `users.delete(userId)`. -/
def removeUser (r : Room) (userId : String) : Room :=
  { r with users := mapDelete r.users userId }

/-- `getUsers`: `Array.from(users.values())`. -/
def getUsers (r : Room) : List User :=
  r.users.map (fun p => p.2)

/-- `clear`: reset the log and cursor. -/
def clear (r : Room) : Room :=
  { r with operations := [], currentOperationIndex := -1 }

/-- The cursor invariant maintained by the class: `-1 ≤ cursor < length`. -/
def WF (r : Room) : Prop :=
  -1 ≤ r.currentOperationIndex ∧ r.currentOperationIndex < (r.operations.length : Int)

instance (r : Room) : Decidable r.WF := by
  unfold WF; infer_instance

end Room

/-- Iterate `undo` (`true`) / `redo` (`false`) requests over a log. -/
def applyUndoRedos (r : Room) : List Bool → Room
  | [] => r
  | b :: rest => applyUndoRedos (if b then r.undo.1 else r.redo.1) rest

/-- The registry of rooms and the global user map (`rooms`, `users`). -/
structure ServerState where
  rooms : List (String × Room)
  users : List (String × User)
deriving Repr, DecidableEq

def ServerState.initial : ServerState := { rooms := [], users := [] }

/-- Per-connection state (`let currentRoom = 'default'; let currentUser = null`). -/
structure ConnState where
  currentRoom : String
  currentUser : Option User
deriving Repr, DecidableEq

def ConnState.initial : ConnState := { currentRoom := "default", currentUser := none }

/-- Payload of `room:join` (`{roomId, userId, userData}`), all fields optional. -/
structure JoinData where
  roomId : Option String
  userId : Option String
  userData : Option UserData
deriving Repr, DecidableEq

/-- JS `a || b` on a string-valued optional field: `undefined` and `""` are falsy. -/
def jsOrString (a : Option String) (b : String) : String :=
  match a with
  | none => b
  | some s => if s = "" then b else s

/-- The object literal `{id: userId || socket.id, socketId: socket.id,
...userData}` of the `room:join` handler: the spread comes last, so a
`userData` carrying its own `id`/`socketId` keys overwrites the defaults. -/
def buildUser (userId : Option String) (sid : String) (userData : Option UserData) : User :=
  match userData with
  | none => { id := jsOrString userId sid, socketId := sid, extra := none }
  | some ud =>
    { id := ud.id.getD (jsOrString userId sid),
      socketId := ud.socketId.getD sid,
      extra := ud.extra }

/-- Does a `room:join` payload's `userData` carry its own `id` key (which the
spread would copy over the defaulted participant id)? -/
def JoinData.overridesId (data : JoinData) : Bool :=
  match data.userData with
  | none => false
  | some ud => ud.id.isSome

/-- JS falsiness of a number-valued optional field (`!operation.timestamp`):
`undefined` and `0` are falsy. -/
def jsFalsyNat : Option Nat → Bool
  | none => true
  | some n => n == 0

/-- The `draw:event` handler's timestamp backfill:
`if (!operation.timestamp) operation.timestamp = Date.now()`. -/
def backfill (op : Operation) (now : Nat) : Operation :=
  if jsFalsyNat op.timestamp then { op with timestamp := some now } else op

/-- Outbound messages, with their audience baked into the constructor:
`socket.emit` (one target socket), `socket.to(room).emit` (room minus sender),
`io.to(room).emit` (whole room). -/
inductive OutMsg where
  | roomState (targetSid : String) (operations : List Operation) (usersList : List User)
  | userJoined (room : String) (exceptSid : String) (u : User)
  | usersUpdate (room : String) (usersList : List User)
  | drawEvent (room : String) (exceptSid : String) (op : Operation)
  | cursorMove (room : String) (exceptSid : String) (userId : String) (x y : Int)
  | operationUndo (room : String) (operationId : String) (currentIndex : Int)
  | operationRedo (room : String) (operationId : String) (currentIndex : Int)
  | userLeft (room : String) (exceptSid : String) (u : User)
  | canvasClear (room : String)
deriving Repr, DecidableEq

/-- `getRoom`: create the room lazily if absent, then return it. -/
def getRoom (st : ServerState) (roomId : String) : ServerState × Room :=
  match mapGet st.rooms roomId with
  | some r => (st, r)
  | none =>
    let r := Room.mkRoom roomId
    ({ st with rooms := mapSet st.rooms roomId r }, r)

/-- The `room:join` handler. `socket.leave(currentRoom)` / `socket.join(roomId)`
only move the transport group, reflected here by the `currentRoom` update; the
old room's `users` map is not touched. -/
def handleRoomJoin (st : ServerState) (conn : ConnState) (sid : String) (data : JoinData) :
    ServerState × ConnState × List OutMsg :=
  let roomId := data.roomId.getD "default"
  let conn1 : ConnState := { conn with currentRoom := roomId }
  let st1 := (getRoom st roomId).1
  let room := (getRoom st roomId).2
  let user : User := buildUser data.userId sid data.userData
  let room1 := room.addUser user.id user
  let st2 : ServerState :=
    { st1 with rooms := mapSet st1.rooms roomId room1, users := mapSet st1.users sid user }
  let conn2 : ConnState := { conn1 with currentUser := some user }
  (st2, conn2,
    [OutMsg.roomState sid room1.getOperations room1.getUsers,
     OutMsg.userJoined roomId sid user,
     OutMsg.usersUpdate roomId room1.getUsers])

/-- The `draw:event` handler. -/
def handleDrawEvent (st : ServerState) (conn : ConnState) (sid : String)
    (op : Operation) (now : Nat) : ServerState × List OutMsg :=
  let st1 := (getRoom st conn.currentRoom).1
  let room := (getRoom st conn.currentRoom).2
  let op1 := backfill op now
  let room1 := (room.addOperation op1).1
  let saved := (room.addOperation op1).2
  let st2 : ServerState := { st1 with rooms := mapSet st1.rooms conn.currentRoom room1 }
  (st2, [OutMsg.drawEvent conn.currentRoom sid saved])

/-- The `cursor:move` handler: forward, no state mutation. -/
def handleCursorMove (st : ServerState) (conn : ConnState) (sid : String)
    (userId : String) (x y : Int) : ServerState × List OutMsg :=
  (st, [OutMsg.cursorMove conn.currentRoom sid userId x y])

/-- The `operation:undo` handler: broadcast to the whole room only when `undo`
returned an operation. -/
def handleUndo (st : ServerState) (conn : ConnState) : ServerState × List OutMsg :=
  let st1 := (getRoom st conn.currentRoom).1
  let room := (getRoom st conn.currentRoom).2
  let room1 := room.undo.1
  let res := room.undo.2
  let st2 : ServerState := { st1 with rooms := mapSet st1.rooms conn.currentRoom room1 }
  match res with
  | some op =>
    (st2, [OutMsg.operationUndo conn.currentRoom op.id room1.currentOperationIndex])
  | none => (st2, [])

/-- The `operation:redo` handler, symmetric to undo. -/
def handleRedo (st : ServerState) (conn : ConnState) : ServerState × List OutMsg :=
  let st1 := (getRoom st conn.currentRoom).1
  let room := (getRoom st conn.currentRoom).2
  let room1 := room.redo.1
  let res := room.redo.2
  let st2 : ServerState := { st1 with rooms := mapSet st1.rooms conn.currentRoom room1 }
  match res with
  | some op =>
    (st2, [OutMsg.operationRedo conn.currentRoom op.id room1.currentOperationIndex])
  | none => (st2, [])

/-- The `canvas:clear` handler. -/
def handleClear (st : ServerState) (conn : ConnState) : ServerState × List OutMsg :=
  let st1 := (getRoom st conn.currentRoom).1
  let room := (getRoom st conn.currentRoom).2
  let st2 : ServerState := { st1 with rooms := mapSet st1.rooms conn.currentRoom room.clear }
  (st2, [OutMsg.canvasClear conn.currentRoom])

/-- The empty-room cleanup at the end of the `disconnect` handler:
`if (rooms.has(currentRoom)) { if (room.users.size === 0) rooms.delete(...) }`. -/
def deleteRoomIfEmpty (st : ServerState) (roomId : String) : ServerState :=
  match mapGet st.rooms roomId with
  | some room =>
    if room.users.length = 0 then { st with rooms := mapDelete st.rooms roomId }
    else st
  | none => st

/-- The `disconnect` handler: remove the user from the current room (when one
was bound), then delete the current room from the registry if it is empty. -/
def handleDisconnect (st : ServerState) (conn : ConnState) (sid : String) :
    ServerState × List OutMsg :=
  let st1 :=
    match conn.currentUser with
    | some u =>
      let sta := (getRoom st conn.currentRoom).1
      let room := (getRoom st conn.currentRoom).2
      let room1 := room.removeUser u.id
      { sta with rooms := mapSet sta.rooms conn.currentRoom room1,
                 users := mapDelete sta.users sid }
    | none => st
  let msgs :=
    match conn.currentUser with
    | some u =>
      let room := (getRoom st conn.currentRoom).2
      let room1 := room.removeUser u.id
      [OutMsg.userLeft conn.currentRoom sid u,
       OutMsg.usersUpdate conn.currentRoom room1.getUsers]
    | none => ([] : List OutMsg)
  let st2 := deleteRoomIfEmpty st1 conn.currentRoom
  (st2, msgs)

/-- Whole-server state: the registry plus every live connection's session. -/
structure World where
  server : ServerState
  sockets : List (String × ConnState)
deriving Repr, DecidableEq

def World.initial : World := { server := ServerState.initial, sockets := [] }

/-- Inbound events, tagged with the connection they arrive on. -/
inductive Event where
  | connect (sid : String)
  | roomJoin (sid : String) (data : JoinData)
  | drawEvent (sid : String) (op : Operation) (now : Nat)
  | operationUndo (sid : String)
  | operationRedo (sid : String)
  | canvasClear (sid : String)
  | disconnect (sid : String)
deriving Repr, DecidableEq

/-- One step of the single-threaded event loop: dispatch an event to its
handler; events on unknown connections are ignored. -/
def step (w : World) (e : Event) : World × List OutMsg :=
  match e with
  | .connect sid =>
    ({ w with sockets := mapSet w.sockets sid ConnState.initial }, [])
  | .roomJoin sid data =>
    match mapGet w.sockets sid with
    | some conn =>
      let res := handleRoomJoin w.server conn sid data
      ({ server := res.1, sockets := mapSet w.sockets sid res.2.1 }, res.2.2)
    | none => (w, [])
  | .drawEvent sid op now =>
    match mapGet w.sockets sid with
    | some conn =>
      let res := handleDrawEvent w.server conn sid op now
      ({ w with server := res.1 }, res.2)
    | none => (w, [])
  | .operationUndo sid =>
    match mapGet w.sockets sid with
    | some conn =>
      let res := handleUndo w.server conn
      ({ w with server := res.1 }, res.2)
    | none => (w, [])
  | .operationRedo sid =>
    match mapGet w.sockets sid with
    | some conn =>
      let res := handleRedo w.server conn
      ({ w with server := res.1 }, res.2)
    | none => (w, [])
  | .canvasClear sid =>
    match mapGet w.sockets sid with
    | some conn =>
      let res := handleClear w.server conn
      ({ w with server := res.1 }, res.2)
    | none => (w, [])
  | .disconnect sid =>
    match mapGet w.sockets sid with
    | some conn =>
      let res := handleDisconnect w.server conn sid
      ({ server := res.1, sockets := mapDelete w.sockets sid }, res.2)
    | none => (w, [])

/-- Run a trace of events from the empty server. -/
def runTrace (es : List Event) : World :=
  es.foldl (fun w e => (step w e).1) World.initial

/-- Is an event a `room:join`? -/
def Event.isJoin : Event → Bool
  | .roomJoin _ _ => true
  | _ => false

/-- Does a trace contain any `room:join`? -/
def traceHasJoin (es : List Event) : Bool :=
  es.any Event.isJoin

/-- Does room `rid` exist in the registry with `uid` in its membership map? -/
def roomHasMember (w : World) (rid uid : String) : Bool :=
  match mapGet w.server.rooms rid with
  | some r => mapHas r.users uid
  | none => false

/-- The room a connection is currently bound to, if the connection exists. -/
def connRoom (w : World) (sid : String) : Option String :=
  (mapGet w.sockets sid).map (fun c => c.currentRoom)

/-- The registry key an event resolves to: the (defaulted) join target for
`room:join`, and the sender's bound room for every other stateful event;
`none` when the event touches no room (connect, or an unknown socket). -/
def eventTargetRoom (w : World) (e : Event) : Option String :=
  match e with
  | .connect _ => none
  | .roomJoin sid data =>
    (mapGet w.sockets sid).map (fun _ => data.roomId.getD "default")
  | .drawEvent sid _ _ => (mapGet w.sockets sid).map (fun c => c.currentRoom)
  | .operationUndo sid => (mapGet w.sockets sid).map (fun c => c.currentRoom)
  | .operationRedo sid => (mapGet w.sockets sid).map (fun c => c.currentRoom)
  | .canvasClear sid => (mapGet w.sockets sid).map (fun c => c.currentRoom)
  | .disconnect sid => (mapGet w.sockets sid).map (fun c => c.currentRoom)

/-! Concrete fixtures used by scenario conjuncts, witnesses and
counterexamples. -/

def opA : Operation := { id := "A", userId := "u1", timestamp := some 1 }

def opB : Operation := { id := "B", userId := "u1", timestamp := some 2 }

def opC : Operation := { id := "C", userId := "u1", timestamp := some 3 }

def opD : Operation := { id := "D", userId := "u1", timestamp := some 4 }

/-- A room whose stored log is `[A, B, C]` with the cursor on `C`. -/
def rABC : Room :=
  { roomId := "r", operations := [opA, opB, opC], users := [], currentOperationIndex := 2 }

/-- A room whose stored log is `[A]` with the cursor on `A`. -/
def rA : Room :=
  { roomId := "r", operations := [opA], users := [], currentOperationIndex := 0 }

/-- A room with visible log `[A, B]` and one redo-pending operation `C`. -/
def rABpendC : Room :=
  { roomId := "r", operations := [opA, opB, opC], users := [], currentOperationIndex := 1 }

/-- The state after `undo()` then `append(D)` on `rABC`. -/
def rAfterD : Room := (rABC.undo.1.addOperation opD).1

/-- Registry holding exactly room `"r" ↦ rA`. -/
def stA : ServerState := { rooms := [("r", rA)], users := [] }

/-- A connection bound to room `"r"`. -/
def connR : ConnState := { currentRoom := "r", currentUser := none }

/-- Trace: a connection draws before ever joining a room. -/
def preJoinDrawTrace : List Event :=
  [Event.connect "s1", Event.drawEvent "s1" opA 5]

/-- Trace: one connection joins room `"a"`, then switches to room `"b"`. -/
def switchTrace : List Event :=
  [Event.connect "s1",
   Event.roomJoin "s1" { roomId := some "a", userId := some "u1", userData := none },
   Event.roomJoin "s1" { roomId := some "b", userId := some "u1", userData := none }]

/-- Registry holding room `"r" ↦ rABpendC` (visible `[A,B]`, pending `C`). -/
def stABpend : ServerState := { rooms := [("r", rABpendC)], users := [] }

def jdW : JoinData := { roomId := some "r", userId := some "u2", userData := none }

def uW : User := { id := "u2", socketId := "s9", extra := none }

def jdEmpty : JoinData := { roomId := none, userId := none, userData := none }

def opNoTs : Operation := { id := "Z", userId := "u1", timestamp := none }

/-- `room:join` payload with `userId` absent but `userData = {id: "x"}`. -/
def jdSpread : JoinData :=
  { roomId := none, userId := none,
    userData := some { id := some "x", socketId := none, extra := none } }

def uu1 : User := { id := "u1", socketId := "s1", extra := none }

def uu2 : User := { id := "u2", socketId := "s2", extra := none }

def jdA : JoinData := { roomId := some "a", userId := some "u1", userData := none }

/-- World with one connected, never-joined socket `"s1"`. -/
def wConn : World := runTrace [Event.connect "s1"]

/-- World with sockets `"s1"`, `"s2"` both joined to room `"a"`. -/
def wTwo : World :=
  runTrace [Event.connect "s1", Event.roomJoin "s1" jdA, Event.connect "s2",
    Event.roomJoin "s2" { roomId := some "a", userId := some "u2", userData := none }]

/-- Room `"a"` as it stands after `"s1"` disconnects from `wTwo`. -/
def roomA2 : Room :=
  { roomId := "a", operations := [], users := [("u2", uu2)], currentOperationIndex := -1 }

/-- Server state with socket `"s1"` joined to room `"a"` as `"u1"`. -/
def stSw : ServerState :=
  { rooms := [("a", { roomId := "a", operations := [], users := [("u1", uu1)],
                      currentOperationIndex := -1 })],
    users := [("s1", uu1)] }

def connSw : ConnState := { currentRoom := "a", currentUser := some uu1 }

def jdB : JoinData := { roomId := some "b", userId := some "u1", userData := none }

/-! Association-list lemmas for the JS `Map` embedding. -/

theorem mapGet_mapSet_self {α : Type} (m : List (String × α)) (k : String) (v : α) :
    mapGet (mapSet m k v) k = some v := by
  induction m with
  | nil => simp [mapSet, mapGet]
  | cons p rest ih =>
    by_cases h : p.1 = k
    · simp [mapSet, mapGet, h]
    · simp [mapSet, mapGet, h, ih]

theorem mapGet_mapSet_ne {α : Type} (m : List (String × α)) (k k' : String) (v : α)
    (h : k' ≠ k) : mapGet (mapSet m k v) k' = mapGet m k' := by
  have h2 : ¬ k = k' := fun hh => h hh.symm
  induction m with
  | nil => simp [mapSet, mapGet, h2]
  | cons p rest ih =>
    by_cases hp : p.1 = k
    · have hp' : ¬ p.1 = k' := by rw [hp]; exact h2
      simp [mapSet, mapGet, hp, hp', h2]
    · by_cases hp' : p.1 = k'
      · simp [mapSet, mapGet, hp, hp', h]
      · simp [mapSet, mapGet, hp, hp', ih]

theorem mapGet_mapDelete_self {α : Type} (m : List (String × α)) (k : String) :
    mapGet (mapDelete m k) k = none := by
  induction m with
  | nil => simp [mapDelete, mapGet]
  | cons p rest ih =>
    by_cases h : p.1 = k
    · simp [mapDelete, h, ih]
    · simp [mapDelete, mapGet, h, ih]

theorem mapGet_mapDelete_ne {α : Type} (m : List (String × α)) (k k' : String)
    (h : k' ≠ k) : mapGet (mapDelete m k) k' = mapGet m k' := by
  have h2 : ¬ k = k' := fun hh => h hh.symm
  induction m with
  | nil => simp [mapDelete]
  | cons p rest ih =>
    by_cases hp : p.1 = k
    · have hp' : ¬ p.1 = k' := by rw [hp]; exact h2
      simp [mapDelete, mapGet, hp, hp', h2, ih]
    · by_cases hp' : p.1 = k'
      · simp [mapDelete, mapGet, hp, hp', h]
      · simp [mapDelete, mapGet, hp, hp', ih]

/-! Basic facts about the `Room` log operations. -/

theorem Room.undo_fst_operations (r : Room) : r.undo.1.operations = r.operations := by
  unfold Room.undo; split <;> rfl

theorem Room.redo_fst_operations (r : Room) : r.redo.1.operations = r.operations := by
  unfold Room.redo; split <;> rfl

theorem applyUndoRedos_operations (seq : List Bool) (r : Room) :
    (applyUndoRedos r seq).operations = r.operations := by
  induction seq generalizing r with
  | nil => rfl
  | cons b rest ih =>
    cases b
    · simpa [applyUndoRedos] using (ih r.redo.1).trans (Room.redo_fst_operations r)
    · simpa [applyUndoRedos] using (ih r.undo.1).trans (Room.undo_fst_operations r)

theorem Room.mem_of_mem_getOperations (r : Room) (o : Operation)
    (h : o ∈ r.getOperations) : o ∈ r.operations :=
  List.take_subset _ _ h

theorem Room.clear_undo_fst (r : Room) : r.clear.undo.1 = r.clear := by
  simp [Room.clear, Room.undo]

theorem Room.clear_redo_fst (r : Room) : r.clear.redo.1 = r.clear := by
  simp [Room.clear, Room.redo]

/-- Claim C1: appending while the cursor is strictly before the last stored
operation first discards every redo-pending operation, then appends the new
operation and moves the cursor to the end; concretely, `undo()` on a log
`[A,B,C]` followed by `append(D)` yields visible sequence `[A,B,D]`, and no
later sequence of undo/redo calls can ever make `C` visible again. -/
theorem append_truncates_redo_branch (r : Room) (op : Operation)
    (_hr : r.currentOperationIndex < (r.operations.length : Int) - 1) :
    ((r.addOperation op).1.operations =
        r.operations.take (r.currentOperationIndex + 1).toNat ++ [op] ∧
      (r.addOperation op).1.currentOperationIndex =
        ((r.addOperation op).1.operations.length : Int) - 1) ∧
    rAfterD.getOperations = [opA, opB, opD] ∧
    ∀ seq : List Bool, opC ∉ (applyUndoRedos rAfterD seq).getOperations := by
  refine ⟨⟨rfl, rfl⟩, by decide, ?_⟩
  intro seq hmem
  have h1 : opC ∈ (applyUndoRedos rAfterD seq).operations :=
    Room.mem_of_mem_getOperations _ _ hmem
  rw [applyUndoRedos_operations] at h1
  have h2 : rAfterD.operations = [opA, opB, opD] := by decide
  rw [h2] at h1
  simp only [List.mem_cons, List.not_mem_nil, or_false] at h1
  rcases h1 with h | h | h <;> exact absurd h (by decide)

theorem append_truncates_redo_branch_witness :
    (rABpendC.addOperation opD).1.operations = [opA, opB, opD] := by
  have h := (append_truncates_redo_branch rABpendC opD (by decide)).1.1
  rw [h]; decide

/-- Claim C6: on a well-formed log whose cursor is above -1, `undo()` followed
immediately by `redo()` restores the prior state exactly, in particular the
visible sequence (same operations, same order). -/
theorem undo_then_redo_restores (r : Room) (hwf : r.WF)
    (h : -1 < r.currentOperationIndex) :
    (r.undo.1.redo).1 = r ∧ (r.undo.1.redo).1.getOperations = r.getOperations := by
  obtain ⟨rid, ops, us, idx⟩ := r
  obtain ⟨hlo, hhi⟩ := hwf
  simp only at hlo hhi h
  have h0 : ¬ (idx < 0) := by omega
  have h1 : ¬ (idx - 1 ≥ (ops.length : Int) - 1) := by omega
  have hfix : (Room.mk rid ops us idx).undo.1.redo.1 = Room.mk rid ops us idx := by
    simp only [Room.undo, Room.redo, if_neg h0]
    simp only [if_neg h1, Room.mk.injEq]
    exact ⟨trivial, trivial, trivial, by omega⟩
  exact ⟨hfix, by rw [hfix]⟩

theorem undo_then_redo_restores_witness :
    (rABC.undo.1.redo).1 = rABC ∧ (rABC.undo.1.redo).1.getOperations = rABC.getOperations :=
  undo_then_redo_restores rABC (by decide) (by decide)

/-- Claim C7: `undo()` with the cursor at -1 returns no operation and leaves the
log unchanged; `redo()` with the cursor at length-1 returns no operation and
leaves the log unchanged; both are total functions, so no error is raised in
any state. -/
theorem undo_redo_boundary_noop (r : Room) :
    (r.currentOperationIndex = -1 → r.undo = (r, none)) ∧
    (r.currentOperationIndex = (r.operations.length : Int) - 1 → r.redo = (r, none)) := by
  constructor
  · intro h
    simp [Room.undo, h]
  · intro h
    simp [Room.redo, h]

theorem undo_redo_boundary_noop_witness :
    (Room.mkRoom "w").undo = (Room.mkRoom "w", none) ∧ rA.redo = (rA, none) :=
  ⟨(undo_redo_boundary_noop (Room.mkRoom "w")).1 (by decide),
   (undo_redo_boundary_noop rA).2 (by decide)⟩

/-- Claim C8: after `clear()` the visible sequence is empty and the cursor is
-1; `redo()` is a no-op returning nothing; and no sequence of undo/redo calls
can change the cleared state, so no pre-clear operation is recoverable. -/
theorem clear_is_absolute (r : Room) :
    r.clear.getOperations = [] ∧
    r.clear.currentOperationIndex = -1 ∧
    r.clear.redo = (r.clear, none) ∧
    ∀ seq : List Bool, applyUndoRedos r.clear seq = r.clear := by
  refine ⟨rfl, rfl, by simp [Room.clear, Room.redo], ?_⟩
  intro seq
  induction seq with
  | nil => rfl
  | cons b rest ih =>
    show applyUndoRedos (if b then r.clear.undo.1 else r.clear.redo.1) rest = r.clear
    rw [Room.clear_undo_fst, Room.clear_redo_fst, ite_self]
    exact ih

/-- Claim C4: with a well-formed bound room, `operation:undo` with the cursor
above -1 emits exactly one whole-room message carrying the hidden operation's
id and the decremented cursor; with the cursor at -1 nothing is emitted and the
log is unchanged; `operation:redo` is symmetric at the length-1 boundary. -/
theorem undo_redo_broadcast (st : ServerState) (conn : ConnState) (room : Room)
    (hroom : mapGet st.rooms conn.currentRoom = some room) (hwf : room.WF) :
    (-1 < room.currentOperationIndex →
      ∃ op, room.operations[room.currentOperationIndex.toNat]? = some op ∧
        (handleUndo st conn).2 =
          [OutMsg.operationUndo conn.currentRoom op.id (room.currentOperationIndex - 1)]) ∧
    (room.currentOperationIndex = -1 →
      (handleUndo st conn).2 = [] ∧
      mapGet (handleUndo st conn).1.rooms conn.currentRoom = some room) ∧
    (room.currentOperationIndex < (room.operations.length : Int) - 1 →
      ∃ op, room.operations[(room.currentOperationIndex + 1).toNat]? = some op ∧
        (handleRedo st conn).2 =
          [OutMsg.operationRedo conn.currentRoom op.id (room.currentOperationIndex + 1)]) ∧
    (room.currentOperationIndex = (room.operations.length : Int) - 1 →
      (handleRedo st conn).2 = [] ∧
      mapGet (handleRedo st conn).1.rooms conn.currentRoom = some room) := by
  obtain ⟨hlo, hhi⟩ := hwf
  refine ⟨?_, ?_, ?_, ?_⟩
  · intro h
    have hlt : room.currentOperationIndex.toNat < room.operations.length := by omega
    have hnneg : ¬ (room.currentOperationIndex < 0) := by omega
    refine ⟨room.operations[room.currentOperationIndex.toNat], List.getElem?_eq_getElem hlt, ?_⟩
    simp only [handleUndo, getRoom, hroom, Room.undo, if_neg hnneg,
      List.getElem?_eq_getElem hlt]
  · intro h
    have hneg : room.currentOperationIndex < 0 := by omega
    constructor
    · simp only [handleUndo, getRoom, hroom, Room.undo, if_pos hneg]
    · simp only [handleUndo, getRoom, hroom, Room.undo, if_pos hneg]
      exact mapGet_mapSet_self _ _ _
  · intro h
    have hlt : (room.currentOperationIndex + 1).toNat < room.operations.length := by omega
    have hcond : ¬ (room.currentOperationIndex ≥ (room.operations.length : Int) - 1) := by
      omega
    refine ⟨room.operations[(room.currentOperationIndex + 1).toNat],
      List.getElem?_eq_getElem hlt, ?_⟩
    simp only [handleRedo, getRoom, hroom, Room.redo, if_neg hcond,
      List.getElem?_eq_getElem hlt]
  · intro h
    have hcond : room.currentOperationIndex ≥ (room.operations.length : Int) - 1 := by omega
    constructor
    · simp only [handleRedo, getRoom, hroom, Room.redo, if_pos hcond]
    · simp only [handleRedo, getRoom, hroom, Room.redo, if_pos hcond]
      exact mapGet_mapSet_self _ _ _

theorem undo_redo_broadcast_witness :
    (handleUndo stA connR).2 = [OutMsg.operationUndo "r" "A" (-1)] ∧
    (handleRedo stA connR).2 = [] := by
  have h := undo_redo_broadcast stA connR rA (by decide) (by decide)
  exact ⟨by decide, (h.2.2.2 (by decide)).1⟩

theorem Room.addUser_getOperations (r : Room) (uid : String) (u : User) :
    (r.addUser uid u).getOperations = r.getOperations := rfl

/-- Claim C5: joining a room that is in the registry sends exactly one
`room:state`, addressed to the joining connection only, whose operations field
is exactly the room's visible sequence (`slice(0, cursor + 1)`), excluding
every redo-pending operation; the other two join messages are not
`room:state`. -/
theorem join_snapshot_only_to_joiner (st : ServerState) (conn : ConnState)
    (sid : String) (data : JoinData) (room : Room)
    (hroom : mapGet st.rooms (data.roomId.getD "default") = some room) :
    (handleRoomJoin st conn sid data).2.2 =
      [OutMsg.roomState sid room.getOperations
         (room.addUser (buildUser data.userId sid data.userData).id
           (buildUser data.userId sid data.userData)).getUsers,
       OutMsg.userJoined (data.roomId.getD "default") sid
         (buildUser data.userId sid data.userData),
       OutMsg.usersUpdate (data.roomId.getD "default")
         (room.addUser (buildUser data.userId sid data.userData).id
           (buildUser data.userId sid data.userData)).getUsers] ∧
    room.getOperations = room.operations.take (room.currentOperationIndex + 1).toNat := by
  constructor
  · simp only [handleRoomJoin, getRoom, hroom]
    rw [Room.addUser_getOperations]
  · rfl

theorem join_snapshot_only_to_joiner_witness :
    (handleRoomJoin stABpend ConnState.initial "s9" jdW).2.2 =
      [OutMsg.roomState "s9" [opA, opB] [uW],
       OutMsg.userJoined "r" "s9" uW,
       OutMsg.usersUpdate "r" [uW]] := by
  have h := (join_snapshot_only_to_joiner stABpend ConnState.initial "s9" jdW rABpendC
    (by decide)).1
  rw [h]; decide

/-- Claim C9 counterexample: on a `room:join` with `userId` absent but
`userData = {id: "x"}`, the spread `{...userData}` is applied after the
defaults, so the bound participant id is `"x"`, not the connection-derived
socket id `"s1"` — the absent-`userId` conjunct of the claim is false. -/
theorem permissive_field_defaults_counterexample :
    jdSpread.userId = none ∧
    (handleRoomJoin ServerState.initial ConnState.initial "s1" jdSpread).2.1.currentUser =
      some { id := "x", socketId := "s1", extra := none } ∧
    ("x" : String) ≠ "s1" := by
  decide

/-- Claim C9 as amended: missing optional inbound fields are defaulted, never
rejected: an absent `roomId` binds the connection to the `"default"` room; an
absent `userId` is replaced by the socket id PROVIDED the `userData` payload
does not itself carry an `id` key (the spread `{...userData}` is applied last
and overwrites the default); and a `draw:event` with an absent timestamp gets
the server timestamp backfilled before the operation is appended (it ends the
stored log) and broadcast. -/
theorem permissive_field_defaults :
    (∀ (st : ServerState) (conn : ConnState) (sid : String) (data : JoinData),
      data.roomId = none →
      (handleRoomJoin st conn sid data).2.1.currentRoom = "default") ∧
    (∀ (st : ServerState) (conn : ConnState) (sid : String) (data : JoinData),
      data.userId = none → data.overridesId = false →
      (handleRoomJoin st conn sid data).2.1.currentUser.map User.id = some sid) ∧
    (∀ (st : ServerState) (conn : ConnState) (sid : String) (op : Operation) (now : Nat),
      op.timestamp = none →
      (handleDrawEvent st conn sid op now).2 =
        [OutMsg.drawEvent conn.currentRoom sid { op with timestamp := some now }] ∧
      ∃ room', mapGet (handleDrawEvent st conn sid op now).1.rooms conn.currentRoom =
          some room' ∧
        room'.operations.getLast? = some { op with timestamp := some now }) := by
  refine ⟨?_, ?_, ?_⟩
  · intro st conn sid data h
    simp [handleRoomJoin, h]
  · intro st conn sid data h1 h2
    simp only [handleRoomJoin, h1]
    cases hud : data.userData with
    | none => simp [buildUser, hud, jsOrString]
    | some ud =>
      have hid : ud.id = none := by
        simp only [JoinData.overridesId, hud] at h2
        cases hi : ud.id with
        | none => rfl
        | some s => rw [hi] at h2; exact absurd h2 (by simp)
      simp [buildUser, hud, hid, jsOrString]
  · intro st conn sid op now h
    have hb : backfill op now = { op with timestamp := some now } := by
      simp [backfill, jsFalsyNat, h]
    constructor
    · simp only [handleDrawEvent, Room.addOperation, hb]
    · refine ⟨((getRoom st conn.currentRoom).2.addOperation (backfill op now)).1,
        mapGet_mapSet_self _ _ _, ?_⟩
      simp only [Room.addOperation, hb]
      rw [List.getLast?_concat]

theorem permissive_field_defaults_witness :
    (handleRoomJoin ServerState.initial ConnState.initial "s2" jdEmpty).2.1.currentRoom =
      "default" ∧
    (handleRoomJoin ServerState.initial ConnState.initial "s2" jdEmpty).2.1.currentUser.map
      User.id = some "s2" ∧
    (handleDrawEvent ServerState.initial ConnState.initial "s2" opNoTs 7).2 =
      [OutMsg.drawEvent "default" "s2" { id := "Z", userId := "u1", timestamp := some 7 }] := by
  refine ⟨permissive_field_defaults.1 ServerState.initial ConnState.initial "s2" jdEmpty rfl,
    permissive_field_defaults.2.1 ServerState.initial ConnState.initial "s2" jdEmpty
      rfl rfl,
    ((permissive_field_defaults.2.2 ServerState.initial ConnState.initial "s2" opNoTs 7
      rfl).1).trans (by decide)⟩

/-- Claim C10: a connection that has never joined is routed to room
`"default"` for every stateful event: `draw:event`, `operation:undo`,
`operation:redo` and `canvas:clear` all act on the `"default"` room, creating
it in the registry on demand with zero members instead of being dropped. -/
theorem prejoin_events_route_to_default (st : ServerState) (sid : String)
    (op : Operation) (now : Nat) (h : mapGet st.rooms "default" = none) :
    ConnState.initial.currentRoom = "default" ∧
    mapGet (handleDrawEvent st ConnState.initial sid op now).1.rooms "default" =
      some ((Room.mkRoom "default").addOperation (backfill op now)).1 ∧
    ((Room.mkRoom "default").addOperation (backfill op now)).1.users = [] ∧
    ((Room.mkRoom "default").addOperation (backfill op now)).1.operations =
      [backfill op now] ∧
    mapGet (handleUndo st ConnState.initial).1.rooms "default" =
      some (Room.mkRoom "default") ∧
    mapGet (handleRedo st ConnState.initial).1.rooms "default" =
      some (Room.mkRoom "default") ∧
    mapGet (handleClear st ConnState.initial).1.rooms "default" =
      some (Room.mkRoom "default").clear ∧
    (Room.mkRoom "default").users = [] := by
  have hinit : ConnState.initial.currentRoom = "default" := rfl
  refine ⟨rfl, ?_, rfl, rfl, ?_, ?_, ?_, rfl⟩
  · simp only [handleDrawEvent, hinit, getRoom, h]
    exact mapGet_mapSet_self _ _ _
  · have h2 : (Room.mkRoom "default").undo = (Room.mkRoom "default", none) := by decide
    simp only [handleUndo, hinit, getRoom, h, h2]
    exact mapGet_mapSet_self _ _ _
  · have h2 : (Room.mkRoom "default").redo = (Room.mkRoom "default", none) := by decide
    simp only [handleRedo, hinit, getRoom, h, h2]
    exact mapGet_mapSet_self _ _ _
  · simp only [handleClear, hinit, getRoom, h]
    exact mapGet_mapSet_self _ _ _

theorem prejoin_events_route_to_default_witness :
    mapGet (handleDrawEvent ServerState.initial ConnState.initial "s3" opA 9).1.rooms
        "default" =
      some { roomId := "default", operations := [opA], users := [],
             currentOperationIndex := 0 } :=
  ((prejoin_events_route_to_default ServerState.initial "s3" opA 9 rfl).2.1).trans (by decide)

/-! Helper lemmas about `getRoom`, the handlers and the cleanup check. -/

theorem mapGet_getRoom_fst_ne (st : ServerState) (rid rid' : String) (h : rid' ≠ rid) :
    mapGet (getRoom st rid).1.rooms rid' = mapGet st.rooms rid' := by
  unfold getRoom
  cases hg : mapGet st.rooms rid
  · exact mapGet_mapSet_ne _ _ _ _ h
  · rfl

theorem handleUndo_fst (st : ServerState) (conn : ConnState) :
    (handleUndo st conn).1 =
      { rooms := mapSet (getRoom st conn.currentRoom).1.rooms conn.currentRoom
          (getRoom st conn.currentRoom).2.undo.1,
        users := (getRoom st conn.currentRoom).1.users } := by
  simp only [handleUndo]
  cases hres : (getRoom st conn.currentRoom).2.undo.2 <;> simp only [hres]

theorem handleRedo_fst (st : ServerState) (conn : ConnState) :
    (handleRedo st conn).1 =
      { rooms := mapSet (getRoom st conn.currentRoom).1.rooms conn.currentRoom
          (getRoom st conn.currentRoom).2.redo.1,
        users := (getRoom st conn.currentRoom).1.users } := by
  simp only [handleRedo]
  cases hres : (getRoom st conn.currentRoom).2.redo.2 <;> simp only [hres]

theorem mapGet_deleteRoomIfEmpty_ne (st : ServerState) (rid rid' : String)
    (h : rid' ≠ rid) :
    mapGet (deleteRoomIfEmpty st rid).rooms rid' = mapGet st.rooms rid' := by
  unfold deleteRoomIfEmpty
  split
  · split
    · exact mapGet_mapDelete_ne _ _ _ h
    · rfl
  · rfl

theorem deleteRoomIfEmpty_no_empty (st : ServerState) (rid : String) (room : Room)
    (h : mapGet (deleteRoomIfEmpty st rid).rooms rid = some room) :
    room.users ≠ [] := by
  unfold deleteRoomIfEmpty at h
  split at h
  next r heq =>
    split at h
    next hz =>
      simp only [mapGet_mapDelete_self] at h
      exact Option.noConfusion h
    next hz =>
      rw [heq] at h
      injection h with h2
      rw [← h2]
      intro hnil
      exact hz (by rw [hnil]; rfl)
  next heq =>
    rw [heq] at h
    exact Option.noConfusion h

/-- Claim C2 counterexample: after socket `"s1"` joins room `"a"` and then
joins room `"b"`, the connection is bound to `"b"` yet participant `"u1"` is
still a member of room `"a"`'s membership map — `room:join` never removes the
participant from the previously bound room. -/
theorem room_switch_counterexample :
    connRoom (runTrace switchTrace) "s1" = some "b" ∧
    roomHasMember (runTrace switchTrace) "a" "u1" = true := by
  decide

/-- Claim C2 as amended: a `room:join` targeting a different room binds the
connection to the new room and registers the participant there, but the old
room's membership map is left untouched — the participant is NOT removed from
the previously bound room. -/
theorem room_switch_keeps_old_membership (st : ServerState) (conn : ConnState)
    (sid : String) (data : JoinData)
    (h : data.roomId.getD "default" ≠ conn.currentRoom) :
    (handleRoomJoin st conn sid data).2.1.currentRoom = data.roomId.getD "default" ∧
    mapGet (handleRoomJoin st conn sid data).1.rooms conn.currentRoom =
      mapGet st.rooms conn.currentRoom ∧
    mapGet (handleRoomJoin st conn sid data).1.rooms (data.roomId.getD "default") =
      some ((getRoom st (data.roomId.getD "default")).2.addUser
        (buildUser data.userId sid data.userData).id
        (buildUser data.userId sid data.userData)) := by
  refine ⟨rfl, ?_, ?_⟩
  · simp only [handleRoomJoin]
    rw [mapGet_mapSet_ne _ _ _ _ (Ne.symm h), mapGet_getRoom_fst_ne _ _ _ (Ne.symm h)]
  · simp only [handleRoomJoin]
    exact mapGet_mapSet_self _ _ _

theorem room_switch_keeps_old_membership_witness :
    (handleRoomJoin stSw connSw "s1" jdB).2.1.currentRoom = "b" ∧
    mapGet (handleRoomJoin stSw connSw "s1" jdB).1.rooms "a" =
      some { roomId := "a", operations := [], users := [("u1", uu1)],
             currentOperationIndex := -1 } ∧
    mapGet (handleRoomJoin stSw connSw "s1" jdB).1.rooms "b" =
      some { roomId := "b", operations := [], users := [("u1", uu1)],
             currentOperationIndex := -1 } := by
  have h := room_switch_keeps_old_membership stSw connSw "s1" jdB (by decide)
  exact ⟨h.1.trans (by decide), h.2.1.trans (by decide), h.2.2.trans (by decide)⟩

/-- Claim C3 counterexample: a `draw:event` from a connected socket that never
sent `room:join` creates room `"default"` in the registry, so a room can be
present in the registry although no join has ever referenced it. -/
theorem room_lifecycle_counterexample :
    traceHasJoin preJoinDrawTrace = false ∧
    mapHas (runTrace preJoinDrawTrace).server.rooms "default" = true := by
  decide

/-- Claim C3 as amended: (1) a step never makes a room appear in the registry
unless the event references that room (a join naming it after defaulting, or
any stateful event from a connection bound to it — such an event may create it
with zero members); (2) the room a join names is in the registry immediately
after the join; (3) immediately and synchronously after a disconnect, the
departed connection's room is still in the registry only if its membership map
is non-empty — when the last member departs, the room is deleted in the same
step, leaving no registry reference to its operation log. -/
theorem room_lifecycle_amended :
    (∀ (w : World) (e : Event) (rid : String),
      eventTargetRoom w e ≠ some rid →
      mapHas (step w e).1.server.rooms rid = mapHas w.server.rooms rid) ∧
    (∀ (w : World) (sid : String) (data : JoinData) (conn : ConnState),
      mapGet w.sockets sid = some conn →
      mapHas (step w (Event.roomJoin sid data)).1.server.rooms
        (data.roomId.getD "default") = true) ∧
    (∀ (w : World) (sid : String) (conn : ConnState) (room : Room),
      mapGet w.sockets sid = some conn →
      mapGet (step w (Event.disconnect sid)).1.server.rooms conn.currentRoom =
        some room →
      room.users ≠ []) := by
  refine ⟨?_, ?_, ?_⟩
  · intro w e rid h
    cases e with
    | connect sid => rfl
    | roomJoin sid data =>
      cases hc : mapGet w.sockets sid with
      | none => simp only [step, hc]
      | some conn =>
        have hne : rid ≠ data.roomId.getD "default" := by
          intro he
          exact h (by simp [eventTargetRoom, hc, he])
        simp only [step, hc, handleRoomJoin]
        unfold mapHas
        rw [mapGet_mapSet_ne _ _ _ _ hne, mapGet_getRoom_fst_ne _ _ _ hne]
    | drawEvent sid op now =>
      cases hc : mapGet w.sockets sid with
      | none => simp only [step, hc]
      | some conn =>
        have hne : rid ≠ conn.currentRoom := by
          intro he
          exact h (by simp [eventTargetRoom, hc, he])
        simp only [step, hc, handleDrawEvent]
        unfold mapHas
        rw [mapGet_mapSet_ne _ _ _ _ hne, mapGet_getRoom_fst_ne _ _ _ hne]
    | operationUndo sid =>
      cases hc : mapGet w.sockets sid with
      | none => simp only [step, hc]
      | some conn =>
        have hne : rid ≠ conn.currentRoom := by
          intro he
          exact h (by simp [eventTargetRoom, hc, he])
        simp only [step, hc, handleUndo_fst]
        unfold mapHas
        rw [mapGet_mapSet_ne _ _ _ _ hne, mapGet_getRoom_fst_ne _ _ _ hne]
    | operationRedo sid =>
      cases hc : mapGet w.sockets sid with
      | none => simp only [step, hc]
      | some conn =>
        have hne : rid ≠ conn.currentRoom := by
          intro he
          exact h (by simp [eventTargetRoom, hc, he])
        simp only [step, hc, handleRedo_fst]
        unfold mapHas
        rw [mapGet_mapSet_ne _ _ _ _ hne, mapGet_getRoom_fst_ne _ _ _ hne]
    | canvasClear sid =>
      cases hc : mapGet w.sockets sid with
      | none => simp only [step, hc]
      | some conn =>
        have hne : rid ≠ conn.currentRoom := by
          intro he
          exact h (by simp [eventTargetRoom, hc, he])
        simp only [step, hc, handleClear]
        unfold mapHas
        rw [mapGet_mapSet_ne _ _ _ _ hne, mapGet_getRoom_fst_ne _ _ _ hne]
    | disconnect sid =>
      cases hc : mapGet w.sockets sid with
      | none => simp only [step, hc]
      | some conn =>
        have hne : rid ≠ conn.currentRoom := by
          intro he
          exact h (by simp [eventTargetRoom, hc, he])
        simp only [step, hc, handleDisconnect]
        unfold mapHas
        rw [mapGet_deleteRoomIfEmpty_ne _ _ _ hne]
        cases hcu : conn.currentUser with
        | none => simp only [hcu]
        | some u =>
          simp only [hcu]
          rw [mapGet_mapSet_ne _ _ _ _ hne, mapGet_getRoom_fst_ne _ _ _ hne]
  · intro w sid data conn hc
    simp only [step, hc, handleRoomJoin]
    unfold mapHas
    rw [mapGet_mapSet_self]
    rfl
  · intro w sid conn room hc h
    simp only [step, hc, handleDisconnect] at h
    exact deleteRoomIfEmpty_no_empty _ _ _ h

theorem room_lifecycle_amended_witness :
    mapHas (step World.initial (Event.canvasClear "sX")).1.server.rooms "other" =
      mapHas World.initial.server.rooms "other" ∧
    mapHas (step wConn (Event.roomJoin "s1" jdA)).1.server.rooms "a" = true ∧
    roomA2.users ≠ [] := by
  refine ⟨room_lifecycle_amended.1 World.initial (Event.canvasClear "sX") "other"
      (by decide), ?_,
    room_lifecycle_amended.2.2 wTwo "s1"
      { currentRoom := "a", currentUser := some uu1 } roomA2 (by decide) (by decide)⟩
  have h := room_lifecycle_amended.2.1 wConn "s1" jdA ConnState.initial (by decide)
  exact h
